import Mathlib

/-!
Verification of the matching-and-dispatch core of the `mockhttpserver` repository
(current code: the `moxy` package — `Expectation`/`matches`/`containsAll` in
`expectations.go` and `MockServer.handler` / `VerifyExpectations` in the server
file).  The Go code is shallowly embedded: byte slices become `List Nat`, Go
`int`/`int64` become `Int` where their sign matters and `Nat` for list cursors,
maps become association lists, a compiled `regexp.Regexp` becomes an abstract
whole-path matcher returning its named captures, and `encoding/json` decoding
becomes an abstract `Option`-valued parameter.  Functions of the source keep
their names.
-/

namespace Moxy

/-- Abstract model of a compiled Go `regexp.Regexp` as used by
`Expectation.matches`: `find path` models
`FindStringSubmatch(path)` combined with `SubexpNames()`, returning `none` when
the pattern does not match the path and otherwise the association list of
named capture groups (group name → captured substring).  `source` models
`Regexp.String()` as used by `Expectation.String`. -/
structure PathPattern where
  source : String
  find : String → Option (List (String × String))

/-- `ResponseDefinition` of the source (status, body bytes, headers, delay in
nanoseconds, timeout-simulation flag). -/
structure ResponseDefinition where
  StatusCode : Int
  Body : List Nat
  Headers : List (String × String)
  Delay : Int
  TimeoutSimulation : Bool
deriving DecidableEq

/-- The zero value `ResponseDefinition{}` that the handler starts from when an
expectation has no configured responses. -/
def ResponseDefinition.zero : ResponseDefinition :=
  { StatusCode := 0, Body := [], Headers := [], Delay := 0, TimeoutSimulation := false }

/-- `RequestExpectation` of the source.  `Headers` keys are stored lowercase by
the builder; `BodyMatcher` is the optional body predicate. -/
structure RequestExpectation where
  Method : String
  Path : String
  PathPattern : Option PathPattern
  PathVariables : List (String × String)
  Body : List Nat
  BodyMatcher : Option (List Nat → Bool)
  QueryParams : List (String × String)
  Headers : List (String × String)
  BodyFromFile : Bool

/-- `Expectation` of the source. -/
structure Expectation where
  Request : RequestExpectation
  Responses : List ResponseDefinition
  CreateResponseIndex : Nat
  InvocationCount : Int
  MaxCalls : Option Int
  NextResponseIndex : Nat

/-- An incoming HTTP request as the handler sees it: method, URL path, parsed
query (name → value, first value wins on duplicates, as `url.Values.Get`),
headers (arbitrary case, looked up case-insensitively as `http.Header.Get`),
and the fully read body bytes. -/
structure HttpRequest where
  method : String
  path : String
  query : List (String × String)
  headers : List (String × String)
  body : List Nat

/-- `Config` of the source, restricted to the fields the embedded operations
read (the TLS/protocol fields only affect listener bootstrap). -/
structure Config where
  UnmatchedStatusCode : Int
  UnmatchedStatusMessage : String
  LogUnmatched : Bool
  MaxBodySize : Int
  VerboseLogging : Bool

/-- `UnmatchedRequest` snapshot of the source (wall-clock timestamp omitted;
Go stores the body as `string(body)`, kept here as the bytes). -/
structure UnmatchedRequest where
  Method : String
  URL : String
  Headers : List (String × String)
  Body : List Nat
deriving DecidableEq

/-- `ExpectationError` of the source. -/
structure ExpectationError where
  Message : String
  Details : List String
deriving DecidableEq

/-- The mutable server state the handler and verifier operate on: the
expectation registry, the unmatched-request log, the configuration and whether
a custom unmatched responder is installed (the responder itself is an external
callback and is modelled by the flag plus a distinguished outcome). -/
structure MockServer where
  expectations : List Expectation
  unmatchedRequests : List UnmatchedRequest
  config : Config
  hasUnmatchedResponder : Bool

/-- `url.Values.Get`: first value for the key, `""` when absent. -/
def queryGet (q : List (String × String)) (k : String) : String :=
  match q.find? (fun p => p.1 == k) with
  | some p => p.2
  | none => ""

/-- `http.Header.Get` modelled as a case-insensitive lookup (Go canonicalises
the MIME header key; both sides are compared lowercased here), `""` when
absent. -/
def headerGet (hs : List (String × String)) (k : String) : String :=
  match hs.find? (fun p => p.1.toLower == k.toLower) with
  | some p => p.2
  | none => ""

/-- Lookup in an association list of strings (Go map indexing with the
`value, ok` form). -/
def lookupStr (l : List (String × String)) (k : String) : Option String :=
  match l.find? (fun p => p.1 == k) with
  | some p => some p.2
  | none => none

/-- `Expectation.matches` (moxy `expectations.go`): method must equal; when a
path pattern is set it must match the path and every declared path variable
must equal the corresponding named capture (when no pattern is set the path is
not inspected); every declared query parameter and header must equal the
request's value; finally the body predicate decides if installed, otherwise a
non-empty exact body must equal the request body. -/
def Expectation.matches (e : Expectation) (r : HttpRequest) (body : List Nat) : Bool :=
  (r.method == e.Request.Method) &&
  (match e.Request.PathPattern with
   | none => true
   | some pp =>
     match pp.find r.path with
     | none => false
     | some capturedGroups =>
       e.Request.PathVariables.all (fun kv =>
         match lookupStr capturedGroups kv.1 with
         | none => false
         | some actualValue => kv.2 == actualValue)) &&
  (if 0 < e.Request.QueryParams.length then
     e.Request.QueryParams.all (fun kv => queryGet r.query kv.1 == kv.2)
   else true) &&
  e.Request.Headers.all (fun kv => headerGet r.headers kv.1 == kv.2) &&
  (match e.Request.BodyMatcher with
   | some f => f body
   | none => if 0 < e.Request.Body.length then body == e.Request.Body else true)

/-- The mutation block of the handler once an expectation is chosen
(`exp.InvocationCount++`; pick `Responses[NextResponseIndex]` when the list is
non-empty and advance the cursor unless it already sits on the last index).
Returns the updated expectation and the selected response (the zero response
when none are configured). -/
def serveExpectation (e : Expectation) : Expectation × ResponseDefinition :=
  let e1 := { e with InvocationCount := e.InvocationCount + 1 }
  if 0 < e1.Responses.length then
    let resp := e1.Responses.getD e1.NextResponseIndex ResponseDefinition.zero
    let e2 :=
      if e1.NextResponseIndex < e1.Responses.length - 1 then
        { e1 with NextResponseIndex := e1.NextResponseIndex + 1 }
      else e1
    (e2, resp)
  else (e1, ResponseDefinition.zero)

/-- What the scan over the registry produced for one request. -/
inductive DispatchOutcome where
  | served (resp : ResponseDefinition)
  | timeoutWait
  | unmatched
deriving DecidableEq

/-- Whether the handler skips a matching expectation:
`exp.MaxCalls != nil && exp.InvocationCount >= *exp.MaxCalls`. -/
def atCap (e : Expectation) : Bool :=
  match e.MaxCalls with
  | some c => decide (c ≤ e.InvocationCount)
  | none => false

/-- The handler's scan loop over the registry: first expectation that matches
and is under its call cap is served (its counter and cursor mutate in place);
matching expectations at their cap are skipped; a selected response with
`TimeoutSimulation` yields the wait outcome instead of a write. -/
def scanExpectations (es : List Expectation) (r : HttpRequest) (body : List Nat) :
    List Expectation × DispatchOutcome :=
  match es with
  | [] => ([], DispatchOutcome.unmatched)
  | e :: rest =>
    if e.matches r body then
      if atCap e then
        let tail := scanExpectations rest r body
        (e :: tail.1, tail.2)
      else
        let served := serveExpectation e
        if served.2.TimeoutSimulation then (served.1 :: rest, DispatchOutcome.timeoutWait)
        else (served.1 :: rest, DispatchOutcome.served served.2)
    else
      let tail := scanExpectations rest r body
      (e :: tail.1, tail.2)

/-- Observable result of one handler invocation. -/
inductive HandlerResult where
  | badRequest
  | served (resp : ResponseDefinition)
  | timeoutWait
  | customUnmatched (u : UnmatchedRequest)
  | defaultUnmatched (code : Int) (msg : String)
deriving DecidableEq

/-- `MockServer.handler`: reject oversized bodies with 400 before touching any
expectation (`http.MaxBytesReader` fails the read when the body exceeds a
positive `MaxBodySize`); otherwise scan the registry; on no match append the
`UnmatchedRequest` snapshot and answer through the custom responder when one
is installed, else with the configured unmatched status and message. -/
def MockServer.handler (m : MockServer) (r : HttpRequest) : MockServer × HandlerResult :=
  if 0 < m.config.MaxBodySize ∧ m.config.MaxBodySize < (r.body.length : Int) then
    (m, HandlerResult.badRequest)
  else
    let scanned := scanExpectations m.expectations r r.body
    match scanned.2 with
    | DispatchOutcome.served resp =>
      ({ m with expectations := scanned.1 }, HandlerResult.served resp)
    | DispatchOutcome.timeoutWait =>
      ({ m with expectations := scanned.1 }, HandlerResult.timeoutWait)
    | DispatchOutcome.unmatched =>
      let u : UnmatchedRequest :=
        { Method := r.method, URL := r.path, Headers := r.headers, Body := r.body }
      let m2 := { m with expectations := scanned.1,
                         unmatchedRequests := m.unmatchedRequests ++ [u] }
      if m.hasUnmatchedResponder then (m2, HandlerResult.customUnmatched u)
      else (m2, HandlerResult.defaultUnmatched m.config.UnmatchedStatusCode
                  m.config.UnmatchedStatusMessage)

/-- `Expectation.String` of the source: method, pattern source (or bare path),
invocation count and the expected count (`"any"` without a cap). -/
def Expectation.toString (e : Expectation) : String :=
  let path :=
    match e.Request.PathPattern with
    | some pp => pp.source
    | none => e.Request.Path
  let expected :=
    match e.MaxCalls with
    | some c => ToString.toString c
    | none => "any"
  e.Request.Method ++ " " ++ path ++ " (called: " ++ ToString.toString e.InvocationCount
    ++ ", expected: " ++ expected ++ ")"

/-- Whether `VerifyExpectations` reports an expectation as unmet:
`exp.MaxCalls != nil && exp.InvocationCount != *exp.MaxCalls`. -/
def unmet (e : Expectation) : Bool :=
  match e.MaxCalls with
  | some c => decide (e.InvocationCount ≠ c)
  | none => false

/-- `MockServer.VerifyExpectations`: collect the diagnostic strings of all
expectations whose cap is set and whose count differs from it; return the
composite error when any exist, `none` otherwise.  The Go method holds the
read lock only and mutates nothing, which the purely functional embedding
reflects. -/
def VerifyExpectations (es : List Expectation) : Option ExpectationError :=
  let unmetList := (es.filter unmet).map Expectation.toString
  if 0 < unmetList.length then
    some { Message := "Unmet expectations found", Details := unmetList }
  else none

/-- `Expectation.WithRequestBody`: install exact body bytes and clear the other
body-match modes. -/
def Expectation.WithRequestBody (e : Expectation) (body : List Nat) : Expectation :=
  { e with Request :=
      { e.Request with Body := body, BodyMatcher := none, BodyFromFile := false } }

/-- A decoded JSON value as `encoding/json` produces it inside an
`interface\x7b\x7d`: null, booleans, numbers, strings, arrays and objects.
Objects are association lists with the decoder's convention of distinct keys
in a canonical order, so structural equality of two decoded values coincides
with Go's `reflect.DeepEqual` on them.  Numbers are kept as `Int` (the claims
only involve integral literals). -/
inductive Json where
  | null
  | bool (b : Bool)
  | num (n : Int)
  | str (s : String)
  | arr (elems : List Json)
  | obj (fields : List (String × Json))

/-- Go map indexing `actual[key]` on a decoded JSON object. -/
def lookupField : List (String × Json) → String → Option Json
  | [], _ => none
  | (k, v) :: rest, key => if k == key then some v else lookupField rest key

mutual

/-- `reflect.DeepEqual` on decoded JSON values (structural equality on the
canonical representation). -/
def Json.deepEqual : Json → Json → Bool
  | Json.null, Json.null => true
  | Json.bool a, Json.bool b => a == b
  | Json.num a, Json.num b => a == b
  | Json.str a, Json.str b => a == b
  | Json.arr a, Json.arr b => Json.deepEqualList a b
  | Json.obj a, Json.obj b => Json.deepEqualFields a b
  | _, _ => false

def Json.deepEqualList : List Json → List Json → Bool
  | [], [] => true
  | x :: xs, y :: ys => Json.deepEqual x y && Json.deepEqualList xs ys
  | _, _ => false

def Json.deepEqualFields : List (String × Json) → List (String × Json) → Bool
  | [], [] => true
  | (k, v) :: xs, (k2, v2) :: ys => k == k2 && Json.deepEqual v v2 && Json.deepEqualFields xs ys
  | _, _ => false

end

mutual

/-- `containsAll` of the source: every key of `expected` must exist in
`actual`; a nested expected object recurses into the corresponding actual
object (failing when the actual value is not an object); any other expected
value must be `reflect.DeepEqual` to the actual one. -/
def containsAll (actual expected : List (String × Json)) : Bool :=
  match expected with
  | [] => true
  | (key, expectedValue) :: rest =>
    containsEntry actual key expectedValue && containsAll actual rest

/-- One iteration of the `containsAll` loop for the pair `(key, expectedValue)`:
the two nested type switches of the source (`expectedValue` an object ⇒
`actualValue` must be an object and `containsAll` recurses; otherwise
`reflect.DeepEqual`). -/
def containsEntry (actual : List (String × Json)) (key : String) (expectedValue : Json) : Bool :=
  match lookupField actual key with
  | none => false
  | some actualValue =>
    match expectedValue with
    | Json.obj expectedMap =>
      match actualValue with
      | Json.obj actualMap => containsAll actualMap expectedMap
      | Json.null => false
      | Json.bool _ => false
      | Json.num _ => false
      | Json.str _ => false
      | Json.arr _ => false
    | Json.null => Json.deepEqual actualValue Json.null
    | Json.bool b => Json.deepEqual actualValue (Json.bool b)
    | Json.num n => Json.deepEqual actualValue (Json.num n)
    | Json.str s => Json.deepEqual actualValue (Json.str s)
    | Json.arr xs => Json.deepEqual actualValue (Json.arr xs)

end

/-- The body predicate installed by `WithRequestPartialJSONBody` for the
already-decoded expected object: `unmarshal` models
`json.Unmarshal(actual, &actualJSON)` into a string-keyed map (`none` when the
body is not valid JSON or not a JSON object); a failed decode is a mismatch,
otherwise `containsAll actual expected` decides. -/
def jsonSubsetBodyMatcher (expectedJSON : List (String × Json))
    (unmarshal : List Nat → Option (List (String × Json))) (actual : List Nat) : Bool :=
  match unmarshal actual with
  | none => false
  | some actualJSON => containsAll actualJSON expectedJSON

/-- The value of a field of an association-list member is smaller than the
list, for the well-founded recursions below. -/
theorem sizeOf_snd_lt_of_mem {p : String × Json} {l : List (String × Json)}
    (h : p ∈ l) : sizeOf p.2 < sizeOf l := by
  induction l with
  | nil => cases h
  | cons q rest ih =>
    rcases List.mem_cons.mp h with h1 | h2
    · subst h1
      obtain ⟨k, v⟩ := p
      simp only [List.cons.sizeOf_spec, Prod.mk.sizeOf_spec]
      omega
    · have := ih h2
      simp only [List.cons.sizeOf_spec]
      omega

/-- Containment as claim C9 words it, on decoded values: for an expected
object, the actual value must be an object in which every expected key/value
pair appears, recursively; for every other expected value the actual value
must be deeply equal to it.  Extra keys of the actual object are allowed at
every level. -/
def JMatch : Json → Json → Prop
  | a, Json.obj expectedFields =>
    match a with
    | Json.obj actualFields =>
      ∀ p ∈ expectedFields, ∃ av, lookupField actualFields p.1 = some av ∧ JMatch av p.2
    | Json.null => False
    | Json.bool _ => False
    | Json.num _ => False
    | Json.str _ => False
    | Json.arr _ => False
  | a, Json.null => a = Json.null
  | a, Json.bool b => a = Json.bool b
  | a, Json.num n => a = Json.num n
  | a, Json.str s => a = Json.str s
  | a, Json.arr xs => a = Json.arr xs
termination_by a e => sizeOf e
decreasing_by
  have hlt := sizeOf_snd_lt_of_mem (by assumption : p ∈ expectedFields)
  simp only [Json.obj.sizeOf_spec]
  omega

mutual

/-- `Json.deepEqual` is structural equality, as `reflect.DeepEqual` is on the
canonical decoded representation. -/
theorem Json.deepEqual_iff : ∀ (a b : Json), Json.deepEqual a b = true ↔ a = b
  | Json.null, b => by cases b <;> simp [Json.deepEqual]
  | Json.bool x, b => by cases b <;> simp [Json.deepEqual]
  | Json.num x, b => by cases b <;> simp [Json.deepEqual]
  | Json.str x, b => by cases b <;> simp [Json.deepEqual]
  | Json.arr xs, b => by
    cases b <;> simp only [Json.deepEqual, Bool.false_eq_true, false_iff] <;>
      try exact fun h => Json.noConfusion h
    case arr ys =>
      rw [Json.deepEqualList_iff xs ys]
      simp
  | Json.obj fs, b => by
    cases b <;> simp only [Json.deepEqual, Bool.false_eq_true, false_iff] <;>
      try exact fun h => Json.noConfusion h
    case obj gs =>
      rw [Json.deepEqualFields_iff fs gs]
      simp

theorem Json.deepEqualList_iff : ∀ (xs ys : List Json), Json.deepEqualList xs ys = true ↔ xs = ys
  | [], ys => by cases ys <;> simp [Json.deepEqualList]
  | x :: xs, [] => by simp [Json.deepEqualList]
  | x :: xs, y :: ys => by
    simp only [Json.deepEqualList, Bool.and_eq_true, Json.deepEqual_iff x y,
      Json.deepEqualList_iff xs ys, List.cons.injEq]

theorem Json.deepEqualFields_iff :
    ∀ (xs ys : List (String × Json)), Json.deepEqualFields xs ys = true ↔ xs = ys
  | [], ys => by cases ys <;> simp [Json.deepEqualFields]
  | x :: xs, [] => by simp [Json.deepEqualFields]
  | (k, v) :: xs, (k2, v2) :: ys => by
    simp only [Json.deepEqualFields, Bool.and_eq_true, beq_iff_eq, Json.deepEqual_iff v v2,
      Json.deepEqualFields_iff xs ys, List.cons.injEq, Prod.mk.injEq, and_assoc]

end

mutual

/-- `containsAll` computes exactly the containment relation of claim C9 for
two decoded objects. -/
theorem containsAll_iff : ∀ (actual expected : List (String × Json)),
    containsAll actual expected = true ↔ JMatch (Json.obj actual) (Json.obj expected)
  | actual, [] => by simp [containsAll, JMatch]
  | actual, (k, ev) :: rest => by
    rw [containsAll, JMatch]
    simp only [Bool.and_eq_true, containsEntry_iff actual k ev, List.mem_cons, forall_eq_or_imp]
    rw [containsAll_iff actual rest, JMatch]

/-- One `containsAll` loop iteration decides the claim's per-entry condition:
the key is present and its expected value is contained in the actual one. -/
theorem containsEntry_iff : ∀ (actual : List (String × Json)) (k : String) (ev : Json),
    containsEntry actual k ev = true ↔
      ∃ av, lookupField actual k = some av ∧ JMatch av ev
  | actual, k, ev => by
    rw [containsEntry]
    cases hl : lookupField actual k with
    | none => simp
    | some av =>
      simp only [Option.some.injEq, exists_eq_left']
      cases ev with
      | obj eo =>
        cases av with
        | obj ao => rw [containsAll_iff ao eo]
        | null => simp [JMatch]
        | bool b => simp [JMatch]
        | num n => simp [JMatch]
        | str s => simp [JMatch]
        | arr xs => simp [JMatch]
      | null => rw [Json.deepEqual_iff]; rw [JMatch]
      | bool b => rw [Json.deepEqual_iff]; rw [JMatch]
      | num n => rw [Json.deepEqual_iff]; rw [JMatch]
      | str s => rw [Json.deepEqual_iff]; rw [JMatch]
      | arr xs => rw [Json.deepEqual_iff]; rw [JMatch]

end

/-- The matcher property exactly as claim C4 states it, including its bare
literal path clause: when no path pattern is set, a provided (non-empty)
literal path must equal the request path. -/
def claimMatches (e : Expectation) (r : HttpRequest) (body : List Nat) : Bool :=
  (r.method == e.Request.Method) &&
  (match e.Request.PathPattern with
   | none => if e.Request.Path == "" then true else r.path == e.Request.Path
   | some pp =>
     match pp.find r.path with
     | none => false
     | some capturedGroups =>
       e.Request.PathVariables.all (fun kv =>
         match lookupStr capturedGroups kv.1 with
         | none => false
         | some actualValue => kv.2 == actualValue)) &&
  e.Request.QueryParams.all (fun kv => queryGet r.query kv.1 == kv.2) &&
  e.Request.Headers.all (fun kv => headerGet r.headers kv.1 == kv.2) &&
  (match e.Request.BodyMatcher with
   | some f => f body
   | none => if 0 < e.Request.Body.length then body == e.Request.Body else true)

/-- Claim C4 with the one correction the code forces: when no path pattern is
set the request path is not constrained at all (the current matcher never
consults the bare `Path` field). -/
def claimMatchesAmended (e : Expectation) (r : HttpRequest) (body : List Nat) : Bool :=
  (r.method == e.Request.Method) &&
  (match e.Request.PathPattern with
   | none => true
   | some pp =>
     match pp.find r.path with
     | none => false
     | some capturedGroups =>
       e.Request.PathVariables.all (fun kv =>
         match lookupStr capturedGroups kv.1 with
         | none => false
         | some actualValue => kv.2 == actualValue)) &&
  e.Request.QueryParams.all (fun kv => queryGet r.query kv.1 == kv.2) &&
  e.Request.Headers.all (fun kv => headerGet r.headers kv.1 == kv.2) &&
  (match e.Request.BodyMatcher with
   | some f => f body
   | none => if 0 < e.Request.Body.length then body == e.Request.Body else true)

/-- `K` sequential invocations of the handler with the same request (the
state threads through; each call is one dispatched HTTP request). -/
def handlerIterN (m : MockServer) (r : HttpRequest) : Nat → MockServer
  | 0 => m
  | k + 1 => ((handlerIterN m r k).handler r).1

/-- The events of one handler invocation that matter for the locking
discipline, in program order: the body-size rejection returns before any
locking; otherwise `m.mu.Lock()` runs first and the deferred `m.mu.Unlock()`
runs when the handler returns — after any `time.Sleep(resp.Delay)`, after the
`<-r.Context().Done()` wait of a timeout simulation, and after the response or
unmatched write. -/
inductive HEvent where
  | badRequestReturn
  | lockAcquire
  | sleepDelay (d : Int)
  | waitCtxDone
  | writeResponse
  | unmatchedAppend
  | lockRelease
deriving DecidableEq

/-- The event trace of `MockServer.handler` for one request, read off the
source's control flow (lock at the top of the scan, deferred unlock at
return). -/
def MockServer.handlerEvents (m : MockServer) (r : HttpRequest) : List HEvent :=
  if 0 < m.config.MaxBodySize ∧ m.config.MaxBodySize < (r.body.length : Int) then
    [HEvent.badRequestReturn]
  else
    let scanned := scanExpectations m.expectations r r.body
    HEvent.lockAcquire ::
      (match scanned.2 with
       | DispatchOutcome.timeoutWait => [HEvent.waitCtxDone]
       | DispatchOutcome.served resp =>
         (if 0 < resp.Delay then [HEvent.sleepDelay resp.Delay] else []) ++
           [HEvent.writeResponse]
       | DispatchOutcome.unmatched => [HEvent.unmatchedAppend, HEvent.writeResponse]) ++
      [HEvent.lockRelease]

/-! ### Helper lemmas about one served dispatch -/

/-- Closed form of `serveExpectation` when responses exist: count up by one,
cursor bumped unless on the last index, and the response at the pre-advance
cursor selected. -/
theorem serveExpectation_eq (e : Expectation) (h : 0 < e.Responses.length) :
    serveExpectation e =
      ({ e with
          InvocationCount := e.InvocationCount + 1,
          NextResponseIndex :=
            if e.NextResponseIndex < e.Responses.length - 1 then e.NextResponseIndex + 1
            else e.NextResponseIndex },
        e.Responses.getD e.NextResponseIndex ResponseDefinition.zero) := by
  unfold serveExpectation
  dsimp only
  rw [if_pos h]
  split <;> rfl

/-- A served dispatch increments the invocation counter by exactly one. -/
theorem serveExpectation_fst_InvocationCount (e : Expectation) :
    (serveExpectation e).1.InvocationCount = e.InvocationCount + 1 := by
  unfold serveExpectation
  dsimp only
  split
  · split <;> rfl
  · rfl

/-- A served dispatch never changes the call cap. -/
theorem serveExpectation_fst_MaxCalls (e : Expectation) :
    (serveExpectation e).1.MaxCalls = e.MaxCalls := by
  unfold serveExpectation
  dsimp only
  split
  · split <;> rfl
  · rfl

/-- A served dispatch never changes the request matcher. -/
theorem serveExpectation_fst_Request (e : Expectation) :
    (serveExpectation e).1.Request = e.Request := by
  unfold serveExpectation
  dsimp only
  split
  · split <;> rfl
  · rfl

/-- A served dispatch never changes the response list. -/
theorem serveExpectation_fst_Responses (e : Expectation) :
    (serveExpectation e).1.Responses = e.Responses := by
  unfold serveExpectation
  dsimp only
  split
  · split <;> rfl
  · rfl

/-- When the first expectation of the registry matches and is under its cap
and the selected response is not a timeout simulation, the handler serves it:
the expectation mutates in place and the response is written. -/
theorem handler_first_served (m : MockServer) (r : HttpRequest) (e : Expectation)
    (rest : List Expectation)
    (hes : m.expectations = e :: rest)
    (hsize : ¬(0 < m.config.MaxBodySize ∧ m.config.MaxBodySize < (r.body.length : Int)))
    (hm : e.matches r r.body = true) (hcap : atCap e = false)
    (hnt : (serveExpectation e).2.TimeoutSimulation = false) :
    m.handler r = ({ m with expectations := (serveExpectation e).1 :: rest },
                   HandlerResult.served (serveExpectation e).2) := by
  unfold MockServer.handler
  rw [if_neg hsize]
  simp only [hes, scanExpectations, hm, if_true, hcap, Bool.false_eq_true, if_false, hnt]

end Moxy

namespace Moxy

/-! ### Claim C4 — matcher characterization -/

/-- Concrete expectation for claim C4: no path pattern, bare literal path
`/a`, no other constraints. -/
def e4 : Expectation :=
  { Request :=
      { Method := "GET", Path := "/a", PathPattern := none, PathVariables := [],
        Body := [], BodyMatcher := none, QueryParams := [], Headers := [],
        BodyFromFile := false },
    Responses := [], CreateResponseIndex := 0, InvocationCount := 0,
    MaxCalls := none, NextResponseIndex := 0 }

/-- Concrete request for claim C4: same method, different path `/b`. -/
def r4 : HttpRequest :=
  { method := "GET", path := "/b", query := [], headers := [], body := [] }

/-- C4 (counterexample): the matcher accepts a request whose path differs from
the expectation's bare literal path when no path pattern is set, so the
claim's "otherwise a bare literal path (if provided) equals R's path" clause
is false of the code: the current `matches` never consults the literal
`Path` field. -/
theorem c4_literal_path_counterexample :
    Expectation.matches e4 r4 [] = true ∧ claimMatches e4 r4 [] = false := by
  constructor <;> decide

/-- C4 (amended): an expectation matches a request iff the claim's conjunction
holds, with the path clause weakened to "when no path pattern is set, the path
is not constrained": method equal; pattern (when set) matches the whole path
with every declared path variable equal to its named capture; every declared
query parameter and (lowercase-stored) header equal under the request's
lookup; body predicate decides when installed, else non-empty exact bytes must
equal the body, else the body check passes. -/
theorem c4_matches_amended_characterization (e : Expectation) (r : HttpRequest)
    (b : List Nat) : e.matches r b = claimMatchesAmended e r b := by
  unfold Expectation.matches claimMatchesAmended
  have hq : ∀ (qs : List (String × String)) (f : String × String → Bool),
      (if 0 < qs.length then qs.all f else true) = qs.all f := by
    intro qs f
    cases qs <;> simp
  rw [hq]

/-! ### Claim C5 — oversized bodies are rejected without touching state -/

/-- C5: when the configured cap is positive and the request body is longer,
the handler answers 400 (bad request) and returns the server state unchanged:
no expectation's `InvocationCount` or `NextResponseIndex` moves and nothing is
appended to the unmatched-request log. -/
theorem c5_oversized_body (m : MockServer) (r : HttpRequest)
    (h1 : 0 < m.config.MaxBodySize)
    (h2 : m.config.MaxBodySize < (r.body.length : Int)) :
    m.handler r = (m, HandlerResult.badRequest) := by
  unfold MockServer.handler
  rw [if_pos ⟨h1, h2⟩]

/-- Concrete server for the C5 witness: cap of 2 bytes. -/
def m5 : MockServer :=
  { expectations := [], unmatchedRequests := [],
    config := { UnmatchedStatusCode := 418, UnmatchedStatusMessage := "Unmatched Request",
                LogUnmatched := true, MaxBodySize := 2, VerboseLogging := false },
    hasUnmatchedResponder := false }

/-- Concrete oversized request for the C5 witness: three body bytes. -/
def r5 : HttpRequest :=
  { method := "POST", path := "/x", query := [], headers := [], body := [1, 2, 3] }

/-- Witness for C5 at a concrete server and request. -/
theorem c5_oversized_body_witness : m5.handler r5 = (m5, HandlerResult.badRequest) :=
  c5_oversized_body m5 r5 (by decide) (by decide)

/-! ### Claim C10 — an empty exact body never constrains the request body -/

/-- C10: with no body predicate installed and the exact expected body unset or
empty, the matcher ignores the request body (its verdict is the same for any
two bodies); consequently installing empty exact bytes through
`WithRequestBody` cannot require an empty request body. -/
theorem c10_empty_exact_body_ignored (e : Expectation) (r : HttpRequest)
    (b1 b2 : List Nat)
    (hm : e.Request.BodyMatcher = none) (hb : e.Request.Body = []) :
    e.matches r b1 = e.matches r b2 ∧
    (e.WithRequestBody []).matches r b1 = (e.WithRequestBody []).matches r b2 := by
  constructor
  · unfold Expectation.matches
    rw [hm, hb]
    simp
  · unfold Expectation.matches Expectation.WithRequestBody
    rfl

/-- Concrete expectation for the C10 witness: no body mode installed. -/
def e10 : Expectation :=
  { Request :=
      { Method := "POST", Path := "", PathPattern := none, PathVariables := [],
        Body := [], BodyMatcher := none, QueryParams := [], Headers := [],
        BodyFromFile := false },
    Responses := [], CreateResponseIndex := 0, InvocationCount := 0,
    MaxCalls := none, NextResponseIndex := 0 }

/-- Concrete request for the C10 witness. -/
def r10 : HttpRequest :=
  { method := "POST", path := "", query := [], headers := [], body := [] }

/-- Witness for C10: the verdict on a non-empty body equals the verdict on the
empty body. -/
theorem c10_empty_exact_body_ignored_witness :
    e10.matches r10 [7, 7] = e10.matches r10 [] ∧
    (e10.WithRequestBody []).matches r10 [7, 7] = (e10.WithRequestBody []).matches r10 [] :=
  c10_empty_exact_body_ignored e10 r10 [7, 7] [] rfl rfl

end Moxy

namespace Moxy

/-! ### Claim C9 — partial-JSON body matching is recursive key/value containment -/

/-- C9: the body matcher built from expected object `J` accepts a body iff the
body decodes to a JSON object that contains, recursively, every key/value pair
of `J` (nested expected objects recurse, all other values must be deeply
equal, extra keys are allowed); in particular the expected object
`\x7b"name":"test"\x7d` accepts a body decoding to
`\x7b"name":"test","age":30,"city":"NYC"\x7d`. -/
theorem c9_json_subset_matcher :
    (∀ (expectedJSON : List (String × Json))
       (unmarshal : List Nat → Option (List (String × Json))) (b : List Nat),
      jsonSubsetBodyMatcher expectedJSON unmarshal b = true ↔
        ∃ actualJSON, unmarshal b = some actualJSON ∧
          JMatch (Json.obj actualJSON) (Json.obj expectedJSON)) ∧
    jsonSubsetBodyMatcher [("name", Json.str "test")]
      (fun _ => some [("name", Json.str "test"), ("age", Json.num 30),
                      ("city", Json.str "NYC")]) [] = true := by
  constructor
  · intro expectedJSON unmarshal b
    unfold jsonSubsetBodyMatcher
    cases h : unmarshal b with
    | none => simp
    | some actualJSON => simp [containsAll_iff]
  · decide

/-! ### Claim C6 — the registry lock is held across the delay sleep -/

/-- Concrete server for claim C6: one expectation matched by `r6` whose
response carries a one-second delay (`time.Duration` in nanoseconds). -/
def m6 : MockServer :=
  { expectations :=
      [{ Request :=
           { Method := "GET", Path := "", PathPattern := none, PathVariables := [],
             Body := [], BodyMatcher := none, QueryParams := [], Headers := [],
             BodyFromFile := false },
         Responses :=
           [{ StatusCode := 200, Body := [], Headers := [],
              Delay := 1000000000, TimeoutSimulation := false }],
         CreateResponseIndex := 0, InvocationCount := 0, MaxCalls := none,
         NextResponseIndex := 0 }],
    unmatchedRequests := [],
    config := { UnmatchedStatusCode := 418, UnmatchedStatusMessage := "Unmatched Request",
                LogUnmatched := true, MaxBodySize := 10485760, VerboseLogging := false },
    hasUnmatchedResponder := false }

/-- Concrete request for claim C6, matching the delayed expectation. -/
def r6 : HttpRequest :=
  { method := "GET", path := "/delayed", query := [], headers := [], body := [] }

/-- C6 (code evaluated at the failing input): dispatching the delayed
expectation produces the event order lock-acquire, sleep, write, lock-release
— the `time.Sleep(resp.Delay)` runs strictly between `m.mu.Lock()` and the
deferred `m.mu.Unlock()`, so the registry lock is NOT released before
sleeping and a delayed response blocks every concurrent request on the same
server for the duration of the delay. -/
theorem c6_sleep_holds_lock :
    m6.handlerEvents r6 =
      [HEvent.lockAcquire, HEvent.sleepDelay 1000000000,
       HEvent.writeResponse, HEvent.lockRelease] := by
  decide

/-! ### Claim C7 — a matched expectation without responses serves status 0 -/

/-- Concrete registered expectation for claim C7: matches any GET and has an
empty response list. -/
def e7 : Expectation :=
  { Request :=
      { Method := "GET", Path := "", PathPattern := none, PathVariables := [],
        Body := [], BodyMatcher := none, QueryParams := [], Headers := [],
        BodyFromFile := false },
    Responses := [], CreateResponseIndex := 0, InvocationCount := 0,
    MaxCalls := none, NextResponseIndex := 0 }

/-- Concrete server for claim C7. -/
def m7 : MockServer :=
  { expectations := [e7], unmatchedRequests := [],
    config := { UnmatchedStatusCode := 418, UnmatchedStatusMessage := "Unmatched Request",
                LogUnmatched := true, MaxBodySize := 10485760, VerboseLogging := false },
    hasUnmatchedResponder := false }

/-- Concrete request for claim C7, matching `e7`. -/
def r7 : HttpRequest :=
  { method := "GET", path := "/nores", query := [], headers := [], body := [] }

/-- C7 (code evaluated at the failing input): a matched expectation with an
empty response list is served with the zero-value `ResponseDefinition` —
status code 0 (not the implicit 200 the claim describes; `WriteHeader(0)` is
rejected by `net/http`), empty body and no headers — while the invocation
counter still increments. -/
theorem c7_empty_responses_zero_status :
    (m7.handler r7).2 = HandlerResult.served ResponseDefinition.zero ∧
    ((m7.handler r7).1.expectations.headD e7).InvocationCount = 1 := by
  constructor <;> decide

end Moxy

namespace Moxy

/-! ### Claim C8 — timeout simulation counts the call before waiting -/

/-- C8: when the first matching, under-cap expectation selects a response with
`TimeoutSimulation`, the handler produces the wait outcome — the model of
`<-r.Context().Done()` with no status, headers or body ever written — and the
expectation's invocation counter has already been incremented, so the call is
visible to verification even though the client will time out. -/
theorem c8_timeout_simulation_counted (m : MockServer) (r : HttpRequest)
    (e : Expectation) (rest : List Expectation)
    (hes : m.expectations = e :: rest)
    (hsize : ¬(0 < m.config.MaxBodySize ∧ m.config.MaxBodySize < (r.body.length : Int)))
    (hm : e.matches r r.body = true) (hcap : atCap e = false)
    (ht : (serveExpectation e).2.TimeoutSimulation = true) :
    m.handler r = ({ m with expectations := (serveExpectation e).1 :: rest },
                   HandlerResult.timeoutWait) ∧
    (serveExpectation e).1.InvocationCount = e.InvocationCount + 1 := by
  refine ⟨?_, serveExpectation_fst_InvocationCount e⟩
  unfold MockServer.handler
  rw [if_neg hsize]
  simp only [hes, scanExpectations, hm, if_true, hcap, Bool.false_eq_true, if_false, ht]

/-- Concrete expectation for the C8 witness: one response flagged as a
timeout simulation. -/
def e8 : Expectation :=
  { Request :=
      { Method := "GET", Path := "", PathPattern := none, PathVariables := [],
        Body := [], BodyMatcher := none, QueryParams := [], Headers := [],
        BodyFromFile := false },
    Responses :=
      [{ StatusCode := 200, Body := [], Headers := [], Delay := 0,
         TimeoutSimulation := true }],
    CreateResponseIndex := 0, InvocationCount := 0, MaxCalls := none,
    NextResponseIndex := 0 }

/-- Concrete server for the C8 witness. -/
def m8 : MockServer :=
  { expectations := [e8], unmatchedRequests := [],
    config := { UnmatchedStatusCode := 418, UnmatchedStatusMessage := "Unmatched Request",
                LogUnmatched := true, MaxBodySize := 10485760, VerboseLogging := false },
    hasUnmatchedResponder := false }

/-- Concrete request for the C8 witness, matching `e8`. -/
def r8 : HttpRequest :=
  { method := "GET", path := "/t", query := [], headers := [], body := [] }

/-- Witness for C8 at a concrete server and request. -/
theorem c8_timeout_simulation_counted_witness :
    m8.handler r8 = ({ m8 with expectations := (serveExpectation e8).1 :: [] },
                     HandlerResult.timeoutWait) ∧
    (serveExpectation e8).1.InvocationCount = e8.InvocationCount + 1 :=
  c8_timeout_simulation_counted m8 r8 e8 [] rfl (by decide) (by decide) (by decide)
    (by decide)

end Moxy

namespace Moxy

/-! ### Claim C3 — verification succeeds exactly when every cap is met -/

/-- The `unmet` test holds exactly when a cap is set and missed. -/
theorem unmet_iff (e : Expectation) :
    unmet e = true ↔ ∃ c, e.MaxCalls = some c ∧ e.InvocationCount ≠ c := by
  unfold unmet
  cases h : e.MaxCalls with
  | none => simp
  | some c => simp [h]

/-- C3: `VerifyExpectations` returns no error iff every expectation with a cap
has been invoked exactly that many times (uncapped expectations are ignored);
and when it returns an error, the error's details contain the diagnostic
string of every unmet expectation and nothing else.  The Go method reads under
`RLock` and mutates nothing, which the purely functional embedding reflects:
the registry passed in is not returned modified. -/
theorem c3_verify_expectations_iff (es : List Expectation) :
    (VerifyExpectations es = none ↔
      ∀ e ∈ es, ∀ c, e.MaxCalls = some c → e.InvocationCount = c) ∧
    (∀ err, VerifyExpectations es = some err →
      (∀ e ∈ es, (∃ c, e.MaxCalls = some c ∧ e.InvocationCount ≠ c) →
        Expectation.toString e ∈ err.Details) ∧
      (∀ s ∈ err.Details, ∃ e, e ∈ es ∧
        (∃ c, e.MaxCalls = some c ∧ e.InvocationCount ≠ c) ∧
        s = Expectation.toString e)) := by
  have hL : VerifyExpectations es =
      (if 0 < ((es.filter unmet).map Expectation.toString).length then
        some { Message := "Unmet expectations found",
               Details := (es.filter unmet).map Expectation.toString }
      else none) := rfl
  have h1 : VerifyExpectations es = none ↔ es.filter unmet = [] := by
    rw [hL]
    split
    next hpos =>
      simp only [List.length_map, List.length_pos] at hpos
      constructor
      · intro h; cases h
      · intro h; exact absurd h hpos
    next hpos =>
      simp only [List.length_map, Nat.not_lt, Nat.le_zero, List.length_eq_zero] at hpos
      simp [hpos]
  constructor
  · rw [h1, List.filter_eq_nil_iff]
    constructor
    · intro h e he c hc
      by_contra hne
      exact h e he ((unmet_iff e).mpr ⟨c, hc, hne⟩)
    · intro h e he hu
      obtain ⟨c, hc, hne⟩ := (unmet_iff e).mp hu
      exact hne (h e he c hc)
  · intro err herr
    have hdet : err.Details = (es.filter unmet).map Expectation.toString := by
      rw [hL] at herr
      split at herr
      · simp only [Option.some.injEq] at herr
        rw [← herr]
      · cases herr
    constructor
    · intro e he hu
      rw [hdet]
      exact List.mem_map_of_mem _ (List.mem_filter.mpr ⟨he, (unmet_iff e).mpr hu⟩)
    · intro s hs
      rw [hdet] at hs
      obtain ⟨e, hef, hse⟩ := List.mem_map.mp hs
      have hmf := List.mem_filter.mp hef
      exact ⟨e, hmf.1, (unmet_iff e).mp hmf.2, hse.symm⟩

/-- Concrete unmet expectation for the C3 witness: cap 2, called once. -/
def e3u : Expectation :=
  { Request :=
      { Method := "GET", Path := "/cap", PathPattern := none, PathVariables := [],
        Body := [], BodyMatcher := none, QueryParams := [], Headers := [],
        BodyFromFile := false },
    Responses := [], CreateResponseIndex := 0, InvocationCount := 1,
    MaxCalls := some 2, NextResponseIndex := 0 }

/-- Witness for C3: on a registry with one unmet expectation the verifier
returns an error whose details contain that expectation's diagnostic
string. -/
theorem c3_verify_expectations_iff_witness :
    Expectation.toString e3u ∈
      (ExpectationError.mk "Unmet expectations found"
        (([e3u].filter unmet).map Expectation.toString)).Details :=
  (((c3_verify_expectations_iff [e3u]).2
      { Message := "Unmet expectations found",
        Details := ([e3u].filter unmet).map Expectation.toString } rfl).1) e3u
    (by simp) ⟨2, rfl, by decide⟩

end Moxy

namespace Moxy

/-! ### Claim C2 — the call cap is never exceeded; capped expectations fall through -/

/-- The cap invariant of one expectation: the counter never exceeds a set cap. -/
def capInv (e : Expectation) : Prop :=
  ∀ c, e.MaxCalls = some c → e.InvocationCount ≤ c

/-- One registry scan preserves the cap invariant of every expectation: an
expectation is only served while strictly under its cap, and serving adds
exactly one. -/
theorem scanExpectations_capInv (r : HttpRequest) (b : List Nat) :
    ∀ (es : List Expectation), (∀ e ∈ es, capInv e) →
      ∀ e2 ∈ (scanExpectations es r b).1, capInv e2 := by
  intro es
  induction es with
  | nil =>
    intro _ e2 he2
    simp [scanExpectations] at he2
  | cons e rest ih =>
    intro h e2 he2
    have hhead : capInv e := h e (List.mem_cons_self e rest)
    have htail : ∀ x ∈ rest, capInv x := fun x hx => h x (List.mem_cons_of_mem e hx)
    cases hmatch : e.matches r b with
    | false =>
      simp only [scanExpectations, hmatch, Bool.false_eq_true, if_false,
        List.mem_cons] at he2
      rcases he2 with rfl | he2
      · exact hhead
      · exact ih htail e2 he2
    | true =>
      cases hcap : atCap e with
      | true =>
        simp only [scanExpectations, hmatch, if_true, hcap, List.mem_cons] at he2
        rcases he2 with rfl | he2
        · exact hhead
        · exact ih htail e2 he2
      | false =>
        have hserved : e2 = (serveExpectation e).1 ∨ e2 ∈ rest := by
          simp only [scanExpectations, hmatch, if_true, hcap, Bool.false_eq_true,
            if_false, List.mem_cons] at he2
          split at he2 <;> simpa using he2
        rcases hserved with rfl | he2
        · intro c hc
          rw [serveExpectation_fst_MaxCalls] at hc
          rw [serveExpectation_fst_InvocationCount]
          have hnot : ¬(c ≤ e.InvocationCount) := by
            unfold atCap at hcap
            rw [hc] at hcap
            simpa using hcap
          omega
        · exact htail e2 he2

/-- The expectations after one handler call are either untouched (oversized
body) or the result of one registry scan. -/
theorem handler_fst_expectations (m : MockServer) (r : HttpRequest) :
    ((m.handler r).1).expectations = m.expectations ∨
    ((m.handler r).1).expectations = (scanExpectations m.expectations r r.body).1 := by
  unfold MockServer.handler
  split
  · exact Or.inl rfl
  · dsimp only
    split
    · exact Or.inr rfl
    · exact Or.inr rfl
    · split
      · exact Or.inr rfl
      · exact Or.inr rfl

/-- One handler call preserves the cap invariant of every expectation. -/
theorem handler_capInv (m : MockServer) (r : HttpRequest)
    (h : ∀ e ∈ m.expectations, capInv e) :
    ∀ e2 ∈ ((m.handler r).1).expectations, capInv e2 := by
  rcases handler_fst_expectations m r with heq | heq <;> rw [heq]
  · exact h
  · exact scanExpectations_capInv r r.body m.expectations h

/-- C2: starting from a registry in which no expectation exceeds its cap, no
sequence of handled requests ever pushes `InvocationCount` past a set
`MaxCalls`; and a request that matches an expectation whose count has reached
its cap skips it unchanged — the scan result is that of the remaining
registry, so the request falls through to a later matching expectation or to
the unmatched path. -/
theorem c2_call_cap_invariant :
    (∀ (m : MockServer) (rs : List HttpRequest),
      (∀ e ∈ m.expectations, capInv e) →
      ∀ e2 ∈ (rs.foldl (fun s r => (s.handler r).1) m).expectations, capInv e2) ∧
    (∀ (e : Expectation) (es : List Expectation) (r : HttpRequest) (b : List Nat)
       (c : Int),
      e.matches r b = true → e.MaxCalls = some c → c ≤ e.InvocationCount →
      scanExpectations (e :: es) r b =
        (e :: (scanExpectations es r b).1, (scanExpectations es r b).2)) := by
  constructor
  · intro m rs
    induction rs generalizing m with
    | nil => intro h; simpa using h
    | cons r rs ih =>
      intro h
      simp only [List.foldl_cons]
      exact ih _ (handler_capInv m r h)
  · intro e es r b c hm hc hge
    have hcap : atCap e = true := by
      unfold atCap
      rw [hc]
      simpa using hge
    simp only [scanExpectations, hm, if_true, hcap]

/-- Concrete expectation for the C2 witness: cap 1 already reached. -/
def e2c : Expectation :=
  { Request :=
      { Method := "GET", Path := "", PathPattern := none, PathVariables := [],
        Body := [], BodyMatcher := none, QueryParams := [], Headers := [],
        BodyFromFile := false },
    Responses := [], CreateResponseIndex := 0, InvocationCount := 1,
    MaxCalls := some 1, NextResponseIndex := 0 }

/-- Concrete server for the C2 witness. -/
def m2c : MockServer :=
  { expectations := [e2c], unmatchedRequests := [],
    config := { UnmatchedStatusCode := 418, UnmatchedStatusMessage := "Unmatched Request",
                LogUnmatched := true, MaxBodySize := 10485760, VerboseLogging := false },
    hasUnmatchedResponder := false }

/-- Concrete request for the C2 witness, matching `e2c`. -/
def r2c : HttpRequest :=
  { method := "GET", path := "/cap", query := [], headers := [], body := [] }

/-- Witness for C2 at a concrete server, request and capped expectation. -/
theorem c2_call_cap_invariant_witness :
    (∀ e2 ∈ ([r2c].foldl (fun s r => (s.handler r).1) m2c).expectations, capInv e2) ∧
    scanExpectations [e2c] r2c [] =
      (e2c :: (scanExpectations [] r2c []).1, (scanExpectations [] r2c []).2) := by
  constructor
  · refine c2_call_cap_invariant.1 m2c [r2c] ?_
    intro e he c hc
    have he2 : e = e2c := by simpa [m2c] using he
    subst he2
    have h1 : some (1 : Int) = some c := hc
    injection h1 with h2
    rw [← h2]
    decide
  · exact c2_call_cap_invariant.2 e2c [] r2c [] 1 (by decide) rfl (by decide)

end Moxy


namespace Moxy

/-! ### Claim C1 — counter and cursor after K successful dispatches -/

/-- The state of an initially fresh expectation after `k` successful
dispatches: counter `k`, cursor clamped at the last response index. -/
def advState (e : Expectation) (k : Nat) : Expectation :=
  { e with InvocationCount := (k : Int),
           NextResponseIndex := min k (e.Responses.length - 1) }

/-- A fresh expectation is its own zero-dispatch state. -/
theorem advState_zero (e : Expectation)
    (h0 : e.InvocationCount = 0) (h1 : e.NextResponseIndex = 0) :
    advState e 0 = e := by
  unfold advState
  rw [Nat.cast_zero, ← h0, Nat.zero_min, ← h1]

/-- Serving the `k`-dispatch state advances it to the `(k+1)`-dispatch state:
the counter goes up by one and the cursor never moves past the last index. -/
theorem serve_advance (e : Expectation) (k : Nat) (h1 : 0 < e.Responses.length) :
    (serveExpectation (advState e k)).1 = advState e (k + 1) := by
  unfold advState serveExpectation
  dsimp only
  rw [if_pos h1]
  dsimp only
  split
  next h =>
    simp only [Expectation.mk.injEq, true_and, and_true]
    constructor
    · push_cast
      ring
    · omega
  next h =>
    simp only [Expectation.mk.injEq, true_and, and_true]
    constructor
    · push_cast
      ring
    · omega

/-- The `(k+1)`-st dispatch serves the response at the pre-advance cursor
`min k (N-1)`. -/
theorem serve_selected (e : Expectation) (k : Nat) (h1 : 0 < e.Responses.length) :
    (serveExpectation (advState e k)).2 =
      e.Responses.getD (min k (e.Responses.length - 1)) ResponseDefinition.zero := by
  unfold advState serveExpectation
  dsimp only
  rw [if_pos h1]

/-- One handler call on a single-expectation registry in the `k`-dispatch
state: the response at the pre-advance cursor is served and the state becomes
the `(k+1)`-dispatch state. -/
theorem handler_single_step (m : MockServer) (r : HttpRequest) (e : Expectation) (k : Nat)
    (hes : m.expectations = [advState e k])
    (hsize : ¬(0 < m.config.MaxBodySize ∧ m.config.MaxBodySize < (r.body.length : Int)))
    (hm : e.matches r r.body = true)
    (hne : 0 < e.Responses.length)
    (hnt : ∀ resp ∈ e.Responses, resp.TimeoutSimulation = false)
    (hlt : ∀ c, e.MaxCalls = some c → (k : Int) < c) :
    m.handler r =
      ({ m with expectations := [advState e (k + 1)] },
       HandlerResult.served (e.Responses.getD (min k (e.Responses.length - 1))
         ResponseDefinition.zero)) := by
  have hcap2 : atCap (advState e k) = false := by
    unfold atCap advState
    dsimp only
    cases hmc : e.MaxCalls with
    | none => rfl
    | some c =>
      have hkc := hlt c hmc
      simp only [decide_eq_false_iff_not, not_le]
      exact hkc
  have hltN : min k (e.Responses.length - 1) < e.Responses.length := by omega
  have hnt2 : (serveExpectation (advState e k)).2.TimeoutSimulation = false := by
    rw [serve_selected e k hne]
    rw [List.getD_eq_getElem _ _ hltN]
    exact hnt _ (List.getElem_mem hltN)
  have hm2 : (advState e k).matches r r.body = true := hm
  have hstep := handler_first_served m r (advState e k) [] hes hsize hm2 hcap2 hnt2
  rw [hstep, serve_advance e k hne, serve_selected e k hne]

/-- Iterating the handler `K` times on a single fresh matching expectation
yields the `K`-dispatch state. -/
theorem handlerIterN_single (m : MockServer) (r : HttpRequest) (e : Expectation)
    (hes : m.expectations = [e])
    (hsize : ¬(0 < m.config.MaxBodySize ∧ m.config.MaxBodySize < (r.body.length : Int)))
    (hm : e.matches r r.body = true)
    (h0 : e.InvocationCount = 0) (h1 : e.NextResponseIndex = 0)
    (hne : 0 < e.Responses.length)
    (hnt : ∀ resp ∈ e.Responses, resp.TimeoutSimulation = false) :
    ∀ (K : Nat), (∀ c, e.MaxCalls = some c → (K : Int) ≤ c) →
      handlerIterN m r K = { m with expectations := [advState e K] } := by
  intro K
  induction K with
  | zero =>
    intro _
    unfold handlerIterN
    rw [advState_zero e h0 h1]
    show m = { m with expectations := [e] }
    rw [← hes]
  | succ K ih =>
    intro hcap
    have hcapK : ∀ c, e.MaxCalls = some c → (K : Int) ≤ c := by
      intro c hc
      have := hcap c hc
      push_cast at this ⊢
      omega
    have hltK : ∀ c, e.MaxCalls = some c → (K : Int) < c := by
      intro c hc
      have := hcap c hc
      push_cast at this ⊢
      omega
    show ((handlerIterN m r K).handler r).1 = _
    rw [ih hcapK]
    rw [handler_single_step { m with expectations := [advState e K] } r e K rfl
      hsize hm hne hnt hltK]

end Moxy

namespace Moxy

/-- Concrete expectation for the C1 counterexample: two configured responses. -/
def ec1 : Expectation :=
  { Request :=
      { Method := "GET", Path := "", PathPattern := none, PathVariables := [],
        Body := [], BodyMatcher := none, QueryParams := [], Headers := [],
        BodyFromFile := false },
    Responses :=
      [{ StatusCode := 201, Body := [], Headers := [], Delay := 0,
         TimeoutSimulation := false },
       { StatusCode := 202, Body := [], Headers := [], Delay := 0,
         TimeoutSimulation := false }],
    CreateResponseIndex := 0, InvocationCount := 0, MaxCalls := none,
    NextResponseIndex := 0 }

/-- Concrete server for the C1 counterexample. -/
def mc1 : MockServer :=
  { expectations := [ec1], unmatchedRequests := [],
    config := { UnmatchedStatusCode := 418, UnmatchedStatusMessage := "Unmatched Request",
                LogUnmatched := true, MaxBodySize := 10485760, VerboseLogging := false },
    hasUnmatchedResponder := false }

/-- Concrete request for the C1 counterexample, matching `ec1`. -/
def rc1 : HttpRequest :=
  { method := "GET", path := "/seq", query := [], headers := [], body := [] }

/-- C1 (counterexample): after `K = 1` successful dispatch of an expectation
with two responses, the cursor sits at index 1, not at the claim's
`min(K-1, len-1) = 0` — the claim's formula is the index that the `K`-th
dispatch serves, not the post-dispatch cursor. -/
theorem c1_cursor_formula_counterexample :
    ((handlerIterN mc1 rc1 1).expectations.headD ec1).NextResponseIndex ≠
      min (1 - 1) (ec1.Responses.length - 1) := by
  decide

/-- C1 (amended): after `K` successful dispatches of an initially fresh
expectation (matched requests served while under any call cap, no timeout
simulations), `InvocationCount = K` and `NextResponseIndex = min(K, len-1)`
— the cursor never moves past the last index — and the `(k+1)`-st dispatch
serves the response at the pre-advance cursor `min(k, len-1)` (repeat-last
semantics). -/
theorem c1_successful_dispatch_counts (m : MockServer) (r : HttpRequest)
    (e : Expectation) (K : Nat)
    (hes : m.expectations = [e])
    (hsize : ¬(0 < m.config.MaxBodySize ∧ m.config.MaxBodySize < (r.body.length : Int)))
    (hm : e.matches r r.body = true)
    (h0 : e.InvocationCount = 0) (h1 : e.NextResponseIndex = 0)
    (hne : 0 < e.Responses.length)
    (hnt : ∀ resp ∈ e.Responses, resp.TimeoutSimulation = false)
    (hcap : ∀ c, e.MaxCalls = some c → (K : Int) ≤ c) :
    (handlerIterN m r K).expectations =
      [{ e with InvocationCount := (K : Int),
                NextResponseIndex := min K (e.Responses.length - 1) }] ∧
    (∀ k, k < K → ((handlerIterN m r k).handler r).2 =
      HandlerResult.served (e.Responses.getD (min k (e.Responses.length - 1))
        ResponseDefinition.zero)) := by
  constructor
  · rw [handlerIterN_single m r e hes hsize hm h0 h1 hne hnt K hcap]
    rfl
  · intro k hk
    have hkK : (k : Int) ≤ (K : Int) := by exact_mod_cast le_of_lt hk
    have hkKlt : (k : Int) < (K : Int) := by exact_mod_cast hk
    have hcapk : ∀ c, e.MaxCalls = some c → (k : Int) ≤ c := by
      intro c hc
      have := hcap c hc
      omega
    have hltk : ∀ c, e.MaxCalls = some c → (k : Int) < c := by
      intro c hc
      have := hcap c hc
      omega
    rw [handlerIterN_single m r e hes hsize hm h0 h1 hne hnt k hcapk]
    rw [handler_single_step { m with expectations := [advState e k] } r e k rfl
      hsize hm hne hnt hltk]

/-- Concrete expectation for the C1 witness: three configured responses,
fresh state, no cap. -/
def ew1 : Expectation :=
  { Request :=
      { Method := "GET", Path := "", PathPattern := none, PathVariables := [],
        Body := [], BodyMatcher := none, QueryParams := [], Headers := [],
        BodyFromFile := false },
    Responses :=
      [{ StatusCode := 201, Body := [], Headers := [], Delay := 0,
         TimeoutSimulation := false },
       { StatusCode := 202, Body := [], Headers := [], Delay := 0,
         TimeoutSimulation := false },
       { StatusCode := 203, Body := [], Headers := [], Delay := 0,
         TimeoutSimulation := false }],
    CreateResponseIndex := 0, InvocationCount := 0, MaxCalls := none,
    NextResponseIndex := 0 }

/-- Concrete server for the C1 witness. -/
def mw1 : MockServer :=
  { expectations := [ew1], unmatchedRequests := [],
    config := { UnmatchedStatusCode := 418, UnmatchedStatusMessage := "Unmatched Request",
                LogUnmatched := true, MaxBodySize := 10485760, VerboseLogging := false },
    hasUnmatchedResponder := false }

/-- Concrete request for the C1 witness, matching `ew1`. -/
def rq1 : HttpRequest :=
  { method := "GET", path := "/seq", query := [], headers := [], body := [] }

/-- Witness for the amended C1 at four dispatches of a three-response
expectation. -/
theorem c1_successful_dispatch_counts_witness :
    (handlerIterN mw1 rq1 4).expectations =
      [{ ew1 with InvocationCount := ((4 : Nat) : Int),
                  NextResponseIndex := min 4 (ew1.Responses.length - 1) }] ∧
    (∀ k, k < 4 → ((handlerIterN mw1 rq1 k).handler rq1).2 =
      HandlerResult.served (ew1.Responses.getD (min k (ew1.Responses.length - 1))
        ResponseDefinition.zero)) :=
  c1_successful_dispatch_counts mw1 rq1 ew1 4 rfl (by decide) (by decide) rfl rfl
    (by decide) (by decide) (by intro c hc; exact Option.noConfusion hc)

end Moxy
